import Mathlib

/-!
Shallow embedding of the product-catalog backend (`src/app.py`) and proofs
about its product lifecycle: create / list / get / update / delete over an
in-memory collection, an id counter, and an image store (the `uploads`
directory).

Modelling conventions:
* Python strings are Lean `String`; `request.form.get(k)` / membership of a
  key is an `Option String`; the optional uploaded file is `Option ImageFile`.
* `datetime.now().timestamp()` and `datetime.now().isoformat()` are external
  inputs; each mutating operation takes the generated unique file name
  (`newRef`, abstracting `f"{timestamp}_{secure_filename(filename)}"`) and the
  current time string (`now`) as explicit parameters.
* The image store (the `uploads` directory on disk) is the `store` field of
  the state: the list of file paths currently present.  `image.save(path)`
  writes (or overwrites) the file at `path`; `os.remove` deletes it;
  `os.path.exists` is membership.  Every call made to the store is also
  recorded in the returned `List StoreCall` so that "the store is never
  called" is statable.
* `float(s)` is modelled by `pyFloat?`: Python float parsing succeeds exactly
  on (an idealisation of) Python's numeric-literal grammar; the resulting
  float value is abstracted as the string it was parsed from, since no claim
  computes with price values.  A raised `ValueError` is the `none` case.
* Exception control flow (`try`/`except ValueError`) becomes explicit
  branching: the state at the raise point is the state the handler sees.
-/

/-- Python `str.strip()`: drop whitespace from both ends.  (Python strips a
slightly larger Unicode whitespace class; the difference is irrelevant to
every string appearing here.) -/
def pyStrip (s : String) : String :=
  String.mk
    (((s.toList.dropWhile Char.isWhitespace).reverse.dropWhile
        Char.isWhitespace).reverse)

/-- Python truthiness of `request.form.get(k)`: `None` and `""` are falsy,
every other string is truthy. -/
def pyTruthy : Option String → Bool
  | none => false
  | some s => !s.isEmpty

/-- Python `s.lstrip('/')`: drop every leading `'/'`. -/
def pyLstripSlash (s : String) : String :=
  String.mk (s.toList.dropWhile (fun c => c == '/'))

/-- Drop one optional leading sign, as Python float parsing does. -/
def stripSign : List Char → List Char
  | '+' :: rest => rest
  | '-' :: rest => rest
  | l => l

/-- Mantissa of a float literal: `digits`, `digits.digits`, `.digits` or
`digits.` - at least one digit overall, at most one dot. -/
def mantissaOk (l : List Char) : Bool :=
  let ip := l.takeWhile Char.isDigit
  match l.drop ip.length with
  | [] => !ip.isEmpty
  | '.' :: f => f.all Char.isDigit && (!ip.isEmpty || !f.isEmpty)
  | _ => false

/-- Exponent part after `e`/`E`: optional sign then at least one digit. -/
def exponentOk (l : List Char) : Bool :=
  let l' := stripSign l
  !l'.isEmpty && l'.all Char.isDigit

/-- Does Python `float(s)` succeed?  Surrounding whitespace is stripped, then
`[sign] mantissa [e|E exponent]`.  (Python additionally accepts `inf`, `nan`
and digit-group underscores; no string in this development uses those.) -/
def isNumericString (s : String) : Bool :=
  match (pyStrip s).toList.span (fun c => !(c == 'e' || c == 'E')) with
  | (m, []) => mantissaOk (stripSign m)
  | (m, _ :: e) => mantissaOk (stripSign m) && exponentOk e

/-- The value produced by a successful Python `float(s)`.  Claims here never
compare or compute with price values, only track parse success and whether
the stored value changed, so the float is represented by its source string. -/
structure PyFloat where
  ofString : String
deriving Repr, DecidableEq

/-- `float(s)`: `some` value on success, `none` for a raised `ValueError`. -/
def pyFloat? (s : String) : Option PyFloat :=
  if isNumericString s then some ⟨s⟩ else none

/-- `ALLOWED_EXTENSIONS = {'png', 'jpg', 'jpeg', 'gif', 'webp'}` -/
def ALLOWED_EXTENSIONS : List String := ["png", "jpg", "jpeg", "gif", "webp"]

/-- `allowed_file` (`src/app.py:26`): the name contains a `'.'` and the part
after the last `'.'`, lower-cased, is an allowed extension
(`filename.rsplit('.', 1)[1].lower()`). -/
def allowed_file (filename : String) : Bool :=
  let l := filename.toList
  l.contains '.' &&
    ALLOWED_EXTENSIONS.contains
      (String.mk (((l.reverse.takeWhile (fun c => !(c == '.'))).reverse).map Char.toLower))

/-- An uploaded multipart file part; only its filename matters to the code. -/
structure ImageFile where
  filename : String
deriving Repr, DecidableEq

/-- A catalog record, the dict built at `src/app.py:82`.  `updatedAt` is
absent until the first successful update. -/
structure Product where
  id : Nat
  name : String
  description : String
  prix : PyFloat
  image : String
  createdAt : String
  updatedAt : Option String
deriving Repr, DecidableEq

/-- The service state: the `products` list, the `product_id_counter` global,
and the set of files present in the image store (`uploads/`). -/
structure CatalogState where
  products : List Product
  product_id_counter : Nat
  store : List String
deriving Repr, DecidableEq

/-- Initial state: empty list, counter 1, empty uploads directory. -/
def initState : CatalogState := ⟨[], 1, []⟩

/-- A call made to the image store during one operation. -/
inductive StoreCall where
  | upload (path : String)
  | delete (path : String)
deriving Repr, DecidableEq

/-- The error outcomes the endpoints translate to 400 / 404 responses. -/
inductive ApiError where
  | validation (msg : String)
  | notFound
deriving Repr, DecidableEq

/-- `image.save(path)`: writing a file at an existing path overwrites it, so
the store is kept duplicate-free. -/
def storeSave (store : List String) (path : String) : List String :=
  if store.contains path then store else store ++ [path]

/-- The multipart body of a Create request: the optional `image` file part
and the `name` / `description` / `prix` form fields. -/
structure CreateRequest where
  image : Option ImageFile
  name : Option String
  description : Option String
  prix : Option String
deriving Repr, DecidableEq

/-- `add_product` (`src/app.py:36`).  Checks image presence, non-empty
filename, allowed extension, then field presence; then saves the image
(`image.save`, line 79); then builds the product - `float(prix)` at line 86
runs after the save, and on `ValueError` the handler returns 400 with the
list and counter untouched (but the file already written). -/
def add_product (st : CatalogState) (req : CreateRequest) (newRef now : String) :
    Except ApiError Product × CatalogState × List StoreCall :=
  match req.image with
  | none => (.error (.validation "Image is required"), st, [])
  | some image =>
    if image.filename == "" then
      (.error (.validation "No image selected"), st, [])
    else if !allowed_file image.filename then
      (.error (.validation "Only image files (png, jpg, jpeg, gif, webp) are allowed"), st, [])
    else if !(pyTruthy req.name && pyTruthy req.description && pyTruthy req.prix) then
      (.error (.validation "Name, description, and prix are required"), st, [])
    else
      let image_path := "uploads/" ++ newRef
      let stSaved := { st with store := storeSave st.store image_path }
      match pyFloat? (req.prix.getD "") with
      | none =>
        (.error (.validation "Invalid price format"), stSaved, [.upload image_path])
      | some v =>
        let product : Product :=
          { id := st.product_id_counter
            name := pyStrip (req.name.getD "")
            description := pyStrip (req.description.getD "")
            prix := v
            image := "/uploads/" ++ newRef
            createdAt := now
            updatedAt := none }
        (.ok product,
          { stSaved with
              products := stSaved.products ++ [product]
              product_id_counter := st.product_id_counter + 1 },
          [.upload image_path])

/-- `get_products` (`src/app.py:114`): the `count` and `products` fields of
the JSON response; always succeeds. -/
def get_products (st : CatalogState) : Nat × List Product :=
  (st.products.length, st.products)

/-- `get_product` (`src/app.py:132`): first record whose `id` matches, 404
otherwise. -/
def get_product (st : CatalogState) (pid : Nat) : Except ApiError Product :=
  match st.products.find? (fun p => p.id == pid) with
  | none => .error .notFound
  | some p => .ok p

/-- `delete_product` (`src/app.py:155`): find the record (404 if absent),
delete its image file if it exists on disk, then `products.remove(product)`
(removes the first list element equal to the found record). -/
def delete_product (st : CatalogState) (pid : Nat) :
    Except ApiError Unit × CatalogState × List StoreCall :=
  match st.products.find? (fun p => p.id == pid) with
  | none => (.error .notFound, st, [])
  | some product =>
    let image_path := pyLstripSlash product.image
    let (store', calls) :=
      if st.store.contains image_path then
        (st.store.erase image_path, [StoreCall.delete image_path])
      else (st.store, ([] : List StoreCall))
    (.ok (),
      { st with products := st.products.erase product, store := store' },
      calls)

/-- The multipart body of an Update request: `some` for a key present in
`request.form` / `request.files`, `none` for an absent one. -/
structure UpdateRequest where
  name : Option String
  description : Option String
  prix : Option String
  image : Option ImageFile
deriving Repr, DecidableEq

/-- Replace the first record whose `id` is `pid` (mutation of the dict
object found by `next(...)` inside the list). -/
def setProduct (l : List Product) (pid : Nat) (p' : Product) : List Product :=
  match l with
  | [] => []
  | q :: rest => if q.id == pid then p' :: rest else q :: setProduct rest pid p'

/-- Image phase and timestamp of `update_product` (`src/app.py:203`-`219`):
an absent image part, an empty filename or a disallowed extension is silently
skipped; a valid one deletes the old file (if it exists) and saves the new
one; `updatedAt` is set unconditionally at line 219. -/
def update_image_and_stamp (st : CatalogState) (pid : Nat) (p : Product)
    (image? : Option ImageFile) (newRef now : String) :
    Except ApiError Product × CatalogState × List StoreCall :=
  let (p', store', calls) :=
    match image? with
    | none => (p, st.store, ([] : List StoreCall))
    | some image =>
      if image.filename != "" && allowed_file image.filename then
        let old_image_path := pyLstripSlash p.image
        let (store1, calls1) :=
          if st.store.contains old_image_path then
            (st.store.erase old_image_path, [StoreCall.delete old_image_path])
          else (st.store, ([] : List StoreCall))
        let image_path := "uploads/" ++ newRef
        ({ p with image := "/uploads/" ++ newRef },
          storeSave store1 image_path,
          calls1 ++ [StoreCall.upload image_path])
      else (p, st.store, ([] : List StoreCall))
  let pFinal := { p' with updatedAt := some now }
  (.ok pFinal,
    { st with products := setProduct st.products pid pFinal, store := store' },
    calls)

/-- Text-field phase of `update_product` (`src/app.py:196`-`199`): `name`
and `description` are replaced (stripped) when present in the form. -/
def apply_text_fields (p0 : Product) (req : UpdateRequest) : Product :=
  let p1 := match req.name with
    | none => p0
    | some s => { p0 with name := pyStrip s }
  match req.description with
  | none => p1
  | some s => { p1 with description := pyStrip s }

/-- `update_product` (`src/app.py:185`).  Finds the record (404 if absent),
then mutates field by field in source order: `name`, `description`, then
`prix` - `float(request.form['prix'])` can raise `ValueError`, and the
handler returns 400 with the earlier `name`/`description` mutations already
applied in place.  Then the image phase and the `updatedAt` stamp. -/
def update_product (st : CatalogState) (pid : Nat) (req : UpdateRequest)
    (newRef now : String) :
    Except ApiError Product × CatalogState × List StoreCall :=
  match st.products.find? (fun p => p.id == pid) with
  | none => (.error .notFound, st, [])
  | some p0 =>
    let p2 := apply_text_fields p0 req
    match req.prix with
    | none => update_image_and_stamp st pid p2 req.image newRef now
    | some s =>
      match pyFloat? s with
      | none =>
        (.error (.validation "Invalid price format"),
          { st with products := setProduct st.products pid p2 }, [])
      | some v =>
        update_image_and_stamp st pid { p2 with prix := v } req.image newRef now

/-! ## Operation sequences and reachable states -/

/-- One mutating request to the service, with the environment-supplied
fresh file name and timestamp where the operation needs them. -/
inductive Op where
  | create (req : CreateRequest) (newRef now : String)
  | update (pid : Nat) (req : UpdateRequest) (newRef now : String)
  | delete (pid : Nat)
deriving Repr

/-- State transition of one operation (the read-only endpoints do not
change the state). -/
def applyOp (st : CatalogState) : Op → CatalogState
  | .create req newRef now => (add_product st req newRef now).2.1
  | .update pid req newRef now => (update_product st pid req newRef now).2.1
  | .delete pid => (delete_product st pid).2.1

/-- State after a sequence of operations from the initial state; the
reachable states are exactly the `runOps ops` for prefixes `ops`. -/
def runOps (ops : List Op) : CatalogState :=
  ops.foldl applyOp initState

/-- The pre-upload validation of `add_product` (`src/app.py:41`-`73`):
image present, filename non-empty, extension allowed, all three form fields
truthy.  All of these checks happen before `image.save`. -/
def preUploadValid (req : CreateRequest) : Bool :=
  match req.image with
  | none => false
  | some image =>
    image.filename != "" && allowed_file image.filename &&
      (pyTruthy req.name && pyTruthy req.description && pyTruthy req.prix)

/-- Does `add_product` succeed on this request?  Success is independent of
the state: the pre-upload checks plus `float(prix)` parsing. -/
def createValid (req : CreateRequest) : Bool :=
  preUploadValid req && (pyFloat? (req.prix.getD "")).isSome

/-- The image part of a Create request is missing, has an empty filename, or
has a disallowed extension. -/
def imageBad (req : CreateRequest) : Bool :=
  match req.image with
  | none => true
  | some image => image.filename == "" || !allowed_file image.filename

/-- Does an Update request carry a new image that the code acts on
(present, non-empty filename, allowed extension)? -/
def updateImageValid (req : UpdateRequest) : Bool :=
  match req.image with
  | none => false
  | some image => image.filename != "" && allowed_file image.filename

/-- Does the price field of an Update request parse (vacuously true when the
field is absent)? -/
def updatePriceOk (req : UpdateRequest) : Bool :=
  match req.prix with
  | none => true
  | some s => (pyFloat? s).isSome

/-- The ids assigned by the successful Create calls of one operation, in the
given state. -/
def assignedIds (st : CatalogState) : Op → List Nat
  | .create req newRef now =>
    match (add_product st req newRef now).1 with
    | .ok p => [p.id]
    | .error _ => []
  | _ => []

/-- Run a trace, also collecting the ids assigned by its successful Create
calls in order. -/
def traceRun (st : CatalogState) : List Op → CatalogState × List Nat
  | [] => (st, [])
  | op :: rest =>
    let out := traceRun (applyOp st op) rest
    (out.1, assignedIds st op ++ out.2)

/-- Is this operation a Create that passes validation?  (Create success is
independent of the state it runs in.) -/
def isOkCreate : Op → Bool
  | .create req _ _ => createValid req
  | _ => false

/-- Number of Create operations in a trace that succeed. -/
def numOkCreates (ops : List Op) : Nat :=
  (ops.filter isOkCreate).length

/-- Is the outcome a `ValidationError` (a 400 response)? -/
def isValidationError : Except ApiError Product → Bool
  | .error (.validation _) => true
  | _ => false

/-- The name or description of a Create/Update request is either absent or
does not strip to the empty string. -/
def textOkOpt : Option String → Bool
  | none => true
  | some s => !(pyStrip s).isEmpty

/-- Every name/description string supplied by an operation survives
stripping. -/
def opTextOk : Op → Bool
  | .create req _ _ => textOkOpt req.name && textOkOpt req.description
  | .update _ req _ _ => textOkOpt req.name && textOkOpt req.description
  | .delete _ => true

/-- The record currently stored under `pid`, as `get_product` finds it. -/
def getById (st : CatalogState) (pid : Nat) : Option Product :=
  st.products.find? (fun p => p.id == pid)

/-- The ids currently in the collection, in insertion order. -/
def idsOf (st : CatalogState) : List Nat := st.products.map Product.id

/-- Invariant of every reachable state: ids are strictly increasing along
the collection (hence unique) and all below the counter. -/
def CatInv (st : CatalogState) : Prop :=
  (idsOf st).Pairwise (· < ·) ∧ ∀ p ∈ st.products, p.id < st.product_id_counter

/-- Stored text fields are fixed points of stripping. -/
def TextInv (st : CatalogState) : Prop :=
  ∀ p ∈ st.products,
    pyStrip p.name = p.name ∧ pyStrip p.description = p.description

/-- Stored names and descriptions are non-empty. -/
def NonemptyTextInv (st : CatalogState) : Prop :=
  ∀ p ∈ st.products, p.name ≠ "" ∧ p.description ≠ ""

/-! ## Concrete sample data for the closed instances below -/

/-- A fully valid Create request. -/
def reqMug : CreateRequest :=
  ⟨some ⟨"mug.png"⟩, some "Mug", some "Ceramic mug", some "9.99"⟩

/-- A Create request with a valid image but a non-numeric price. -/
def reqBadPrice : CreateRequest :=
  ⟨some ⟨"mug.png"⟩, some "Mug", some "Ceramic mug", some "abc"⟩

/-- A Create request with no image part at all. -/
def reqNoImage : CreateRequest :=
  ⟨none, some "Mug", some "Ceramic mug", some "9.99"⟩

/-- A Create request whose name is whitespace-only. -/
def reqBlankName : CreateRequest :=
  ⟨some ⟨"a.png"⟩, some "   ", some "d", some "1"⟩

/-- The state after creating the sample product. -/
def stMug : CatalogState := (add_product initState reqMug "r1" "t1").2.1

/-- The record stored by `add_product initState reqMug "r1" "t1"`. -/
def mugProduct : Product :=
  ⟨1, "Mug", "Ceramic mug", ⟨"9.99"⟩, "/uploads/r1", "t1", none⟩

/-! ## Helper lemmas: `add_product` case analysis -/

/-- A request failing one of the pre-upload checks is rejected with the
state untouched and no store call. -/
lemma add_product_of_not_preUploadValid (st : CatalogState) (req : CreateRequest)
    (r n : String) (h : preUploadValid req = false) :
    isValidationError (add_product st req r n).1 = true ∧
      (add_product st req r n).2.1 = st ∧ (add_product st req r n).2.2 = [] := by
  cases hi : req.image with
  | none => simp [add_product, hi, isValidationError]
  | some image =>
    by_cases h1 : image.filename == ""
    · simp [add_product, hi, h1, isValidationError]
    · have h1' : (image.filename == "") = false := by
        simp only [Bool.not_eq_true] at h1
        exact h1
      by_cases h2 : allowed_file image.filename
      · by_cases h3 : (pyTruthy req.name && pyTruthy req.description && pyTruthy req.prix)
        · exfalso
          have hpre : preUploadValid req = true := by
            simp [preUploadValid, hi, h2, h3, bne, h1']
          rw [hpre] at h
          cases h
        · simp only [Bool.not_eq_true] at h3
          simp [add_product, hi, h1', h2, h3, isValidationError]
      · simp only [Bool.not_eq_true] at h2
        simp [add_product, hi, h1', h2, isValidationError]

/-- A request passing the pre-upload checks whose price does not parse:
`image.save` has happened, then `float(prix)` raises and the handler leaves
the collection and counter untouched. -/
lemma add_product_of_price_fail (st : CatalogState) (req : CreateRequest)
    (r n : String) (h : preUploadValid req = true)
    (hp : pyFloat? (req.prix.getD "") = none) :
    add_product st req r n =
      (.error (.validation "Invalid price format"),
        { st with store := storeSave st.store ("uploads/" ++ r) },
        [.upload ("uploads/" ++ r)]) := by
  cases hi : req.image with
  | none => simp [preUploadValid, hi] at h
  | some image =>
    simp only [preUploadValid, hi, Bool.and_eq_true] at h
    obtain ⟨⟨h1, h2⟩, h3⟩ := h
    have h1' : (image.filename == "") = false := by
      simpa [bne] using h1
    simp [add_product, hi, h1', h2, h3, hp]

/-- A fully valid request: the image is uploaded, the product is appended
with the current counter as id, and the counter is incremented. -/
lemma add_product_of_valid (st : CatalogState) (req : CreateRequest)
    (r n : String) (h : createValid req = true) :
    ∃ p : Product,
      add_product st req r n =
        (.ok p,
          { st with
              products := st.products ++ [p]
              product_id_counter := st.product_id_counter + 1
              store := storeSave st.store ("uploads/" ++ r) },
          [.upload ("uploads/" ++ r)]) ∧
      p.id = st.product_id_counter ∧
      p.name = pyStrip (req.name.getD "") ∧
      p.description = pyStrip (req.description.getD "") ∧
      p.image = "/uploads/" ++ r ∧ p.createdAt = n ∧ p.updatedAt = none := by
  simp only [createValid, Bool.and_eq_true, Option.isSome_iff_exists] at h
  obtain ⟨hpre, v, hv⟩ := h
  cases hi : req.image with
  | none => simp [preUploadValid, hi] at hpre
  | some image =>
    simp only [preUploadValid, hi, Bool.and_eq_true] at hpre
    obtain ⟨⟨h1, h2⟩, h3⟩ := hpre
    have h1' : (image.filename == "") = false := by
      simpa [bne] using h1
    refine ⟨{ id := st.product_id_counter
              name := pyStrip (req.name.getD "")
              description := pyStrip (req.description.getD "")
              prix := v
              image := "/uploads/" ++ r
              createdAt := n
              updatedAt := none }, ?_, rfl, rfl, rfl, rfl, rfl, rfl⟩
    simp [add_product, hi, h1', h2, h3, hv]

/-! ## Helper lemmas: stripping is idempotent -/

lemma dropWhile_head_false {α : Type} (p : α → Bool) :
    ∀ (l : List α) (a : α) (t : List α), l.dropWhile p = a :: t → p a = false := by
  intro l
  induction l with
  | nil => intro a t h; cases h
  | cons b r ih =>
    intro a t h
    by_cases hb : p b = true
    · rw [List.dropWhile_cons, if_pos hb] at h
      exact ih a t h
    · rw [List.dropWhile_cons, if_neg hb] at h
      cases h
      simpa using hb

lemma dropWhile_strip_fixed {α : Type} (p : α → Bool) (l : List α) :
    List.dropWhile p ((List.dropWhile p l).rdropWhile p) =
      (List.dropWhile p l).rdropWhile p := by
  rcases hr : (List.dropWhile p l).rdropWhile p with _ | ⟨a, t⟩
  · simp
  · obtain ⟨t', ht'⟩ := List.rdropWhile_prefix p (List.dropWhile p l)
    rw [hr] at ht'
    have ha : p a = false := dropWhile_head_false p l a (t ++ t') ht'.symm
    simp [List.dropWhile_cons, ha]

lemma pyStrip_eq_rdrop (s : String) :
    pyStrip s =
      String.mk ((s.toList.dropWhile Char.isWhitespace).rdropWhile Char.isWhitespace) :=
  rfl

/-- `str.strip()` is idempotent, so stored (stripped) text is fixed by a
further strip. -/
lemma pyStrip_idem (s : String) : pyStrip (pyStrip s) = pyStrip s := by
  have key : ∀ l : List Char,
      List.rdropWhile Char.isWhitespace (List.dropWhile Char.isWhitespace
        (List.rdropWhile Char.isWhitespace (List.dropWhile Char.isWhitespace l))) =
      List.rdropWhile Char.isWhitespace (List.dropWhile Char.isWhitespace l) := by
    intro l
    rw [dropWhile_strip_fixed, List.rdropWhile_idempotent]
  exact congrArg String.mk (key s.toList)

/-! ## Helper lemmas: `setProduct` -/

lemma setProduct_map_id (l : List Product) (pid : Nat) (p' : Product)
    (h : p'.id = pid) : (setProduct l pid p').map Product.id = l.map Product.id := by
  induction l with
  | nil => rfl
  | cons q rest ih =>
    by_cases hq : q.id == pid
    · have hq' : q.id = pid := by simpa using hq
      simp [setProduct, hq, h, hq']
    · simp only [Bool.not_eq_true] at hq
      simp [setProduct, hq, ih]

lemma mem_setProduct {l : List Product} {pid : Nat} {p' q : Product}
    (h : q ∈ setProduct l pid p') : q ∈ l ∨ q = p' := by
  induction l with
  | nil => cases h
  | cons b rest ih =>
    by_cases hb : b.id == pid
    · rw [setProduct, if_pos hb] at h
      rcases List.mem_cons.mp h with h | h
      · exact .inr h
      · exact .inl (List.mem_cons_of_mem _ h)
    · rw [setProduct, if_neg hb] at h
      rcases List.mem_cons.mp h with h | h
      · exact .inl (h ▸ List.mem_cons_self _ _)
      · rcases ih h with h | h
        · exact .inl (List.mem_cons_of_mem _ h)
        · exact .inr h

lemma find?_setProduct {l : List Product} {pid : Nat} {p0 : Product} (p' : Product)
    (h : l.find? (fun p => p.id == pid) = some p0) :
    (setProduct l pid p').find? (fun p => p.id == pid) = some p' ∨ p'.id ≠ pid := by
  by_cases hid : p'.id = pid
  · left
    induction l with
    | nil => cases h
    | cons b rest ih =>
      by_cases hb : b.id == pid
      · simp [setProduct, hb, List.find?_cons, hid]
      · simp only [Bool.not_eq_true] at hb
        rw [List.find?_cons, hb] at h
        simp [setProduct, hb, List.find?_cons, ih h]
  · exact .inr hid

/-! ## Helper lemmas: lookup, erase, filter -/

lemma find?_id_eq {l : List Product} {pid : Nat} {p0 : Product}
    (h : l.find? (fun p => p.id == pid) = some p0) : p0.id = pid := by
  have := List.find?_some h
  simpa using this

lemma find?_of_mem_unique {l : List Product}
    (hu : (l.map Product.id).Pairwise (· ≠ ·)) {p : Product} (hp : p ∈ l) :
    l.find? (fun q => q.id == p.id) = some p := by
  induction l with
  | nil => cases hp
  | cons b rest ih =>
    rw [List.map_cons, List.pairwise_cons] at hu
    rw [List.find?_cons_eq_some]
    rcases List.mem_cons.mp hp with rfl | hp'
    · exact .inl ⟨by simp, rfl⟩
    · have hb : b.id ≠ p.id := hu.1 p.id (List.mem_map_of_mem Product.id hp')
      exact .inr ⟨by simpa using hb, ih hu.2 hp'⟩

lemma erase_find?_eq_filter {l : List Product} {pid : Nat} {p0 : Product}
    (hu : (l.map Product.id).Pairwise (· ≠ ·))
    (h : l.find? (fun p => p.id == pid) = some p0) :
    l.erase p0 = l.filter (fun q => !(q.id == pid)) := by
  induction l with
  | nil => cases h
  | cons b rest ih =>
    rw [List.map_cons, List.pairwise_cons] at hu
    rw [List.find?_cons_eq_some] at h
    rcases h with ⟨hpb, rfl⟩ | ⟨hnb, h⟩
    · have hbid : b.id = pid := by simpa using hpb
      have hfilter : rest.filter (fun q => !(q.id == pid)) = rest := by
        rw [List.filter_eq_self]
        intro q hq
        have hne : b.id ≠ q.id := hu.1 q.id (List.mem_map_of_mem Product.id hq)
        have hqne : q.id ≠ pid := fun hqp => hne (by rw [hbid, hqp])
        simpa using hqne
      rw [List.erase_cons_head]
      simp [List.filter_cons, hbid, hfilter]
    · have hb' : (b.id == pid) = false := by simpa using hnb
      have hpid : p0.id = pid := by simpa using List.find?_some h
      have hbp0 : ¬(b == p0) := by
        intro hc
        have hbeq : b = p0 := by simpa using hc
        rw [hbeq, hpid] at hb'
        simp at hb'
      rw [List.erase_cons_tail hbp0, List.filter_cons]
      have hbk : (!(b.id == pid)) = true := by simp [hb']
      rw [hbk]
      simp only [if_true]
      rw [ih hu.2 h]

/-! ## Helper lemmas: `update_product` case analysis -/

lemma apply_text_fields_id (p0 : Product) (req : UpdateRequest) :
    (apply_text_fields p0 req).id = p0.id := by
  unfold apply_text_fields
  rcases req.name with _ | s <;> rcases req.description with _ | t <;> rfl

lemma update_product_not_found (st : CatalogState) (pid : Nat)
    (req : UpdateRequest) (r n : String)
    (h : st.products.find? (fun p => p.id == pid) = none) :
    update_product st pid req r n = (.error .notFound, st, []) := by
  simp [update_product, h]

lemma uias_no_image (st : CatalogState) (pid : Nat) (p : Product) (r n : String) :
    update_image_and_stamp st pid p none r n =
      (.ok { p with updatedAt := some n },
        { st with products := setProduct st.products pid { p with updatedAt := some n } },
        []) :=
  rfl

lemma uias_bad_image (st : CatalogState) (pid : Nat) (p : Product)
    (image : ImageFile) (r n : String)
    (h : (image.filename != "" && allowed_file image.filename) = false) :
    update_image_and_stamp st pid p (some image) r n =
      (.ok { p with updatedAt := some n },
        { st with products := setProduct st.products pid { p with updatedAt := some n } },
        []) := by
  simp [update_image_and_stamp, h]

lemma uias_good_image (st : CatalogState) (pid : Nat) (p : Product)
    (image : ImageFile) (r n : String)
    (h : (image.filename != "" && allowed_file image.filename) = true) :
    update_image_and_stamp st pid p (some image) r n =
      (.ok { p with image := "/uploads/" ++ r, updatedAt := some n },
        { st with
            products := setProduct st.products pid
              { p with image := "/uploads/" ++ r, updatedAt := some n }
            store := storeSave
              (if st.store.contains (pyLstripSlash p.image) then
                st.store.erase (pyLstripSlash p.image)
              else st.store) ("uploads/" ++ r) },
        (if st.store.contains (pyLstripSlash p.image) then
          [StoreCall.delete (pyLstripSlash p.image)]
        else []) ++ [StoreCall.upload ("uploads/" ++ r)]) := by
  by_cases hc : st.store.contains (pyLstripSlash p.image) = true
  · have hc' : pyLstripSlash p.image ∈ st.store := by simpa using hc
    simp [update_image_and_stamp, h, hc, hc']
  · simp only [Bool.not_eq_true] at hc
    have hc' : pyLstripSlash p.image ∉ st.store := by simpa using hc
    simp [update_image_and_stamp, h, hc, hc']

lemma update_product_price_fail (st : CatalogState) (pid : Nat)
    (req : UpdateRequest) (r n : String) (p0 : Product) (s : String)
    (hf : st.products.find? (fun p => p.id == pid) = some p0)
    (hs : req.prix = some s) (hp : pyFloat? s = none) :
    update_product st pid req r n =
      (.error (.validation "Invalid price format"),
        { st with products := setProduct st.products pid (apply_text_fields p0 req) },
        []) := by
  simp [update_product, hf, hs, hp]

lemma update_product_price_none (st : CatalogState) (pid : Nat)
    (req : UpdateRequest) (r n : String) (p0 : Product)
    (hf : st.products.find? (fun p => p.id == pid) = some p0)
    (hs : req.prix = none) :
    update_product st pid req r n =
      update_image_and_stamp st pid (apply_text_fields p0 req) req.image r n := by
  simp [update_product, hf, hs]

lemma update_product_price_some (st : CatalogState) (pid : Nat)
    (req : UpdateRequest) (r n : String) (p0 : Product) (s : String) (v : PyFloat)
    (hf : st.products.find? (fun p => p.id == pid) = some p0)
    (hs : req.prix = some s) (hv : pyFloat? s = some v) :
    update_product st pid req r n =
      update_image_and_stamp st pid
        { apply_text_fields p0 req with prix := v } req.image r n := by
  simp [update_product, hf, hs, hv]

/-! ## Helper lemmas: `delete_product` case analysis -/

lemma delete_product_not_found (st : CatalogState) (pid : Nat)
    (h : st.products.find? (fun p => p.id == pid) = none) :
    delete_product st pid = (.error .notFound, st, []) := by
  simp [delete_product, h]

lemma delete_product_found (st : CatalogState) (pid : Nat) (p0 : Product)
    (h : st.products.find? (fun p => p.id == pid) = some p0) :
    delete_product st pid =
      (.ok (),
        { st with
            products := st.products.erase p0
            store :=
              if st.store.contains (pyLstripSlash p0.image) then
                st.store.erase (pyLstripSlash p0.image)
              else st.store },
        if st.store.contains (pyLstripSlash p0.image) then
          [StoreCall.delete (pyLstripSlash p0.image)]
        else []) := by
  by_cases hc : st.store.contains (pyLstripSlash p0.image) = true
  · have hc' : pyLstripSlash p0.image ∈ st.store := by simpa using hc
    simp [delete_product, h, hc, hc']
  · simp only [Bool.not_eq_true] at hc
    have hc' : pyLstripSlash p0.image ∉ st.store := by simpa using hc
    simp [delete_product, h, hc, hc']

lemma isValidationError_exists {res : Except ApiError Product}
    (h : isValidationError res = true) : ∃ m, res = .error (.validation m) := by
  rcases res with e | p
  · rcases e with m | _
    · exact ⟨m, rfl⟩
    · cases h
  · cases h

/-! ## The id invariant -/

lemma catInv_init : CatInv initState :=
  ⟨List.Pairwise.nil, by intro p hp; cases hp⟩

lemma catInv_ne {st : CatalogState} (h : CatInv st) :
    (st.products.map Product.id).Pairwise (· ≠ ·) :=
  h.1.imp Nat.ne_of_lt

lemma catInv_add (st : CatalogState) (req : CreateRequest) (r n : String)
    (h : CatInv st) : CatInv (add_product st req r n).2.1 := by
  by_cases hv : createValid req = true
  · obtain ⟨p, heq, hid, -, -, -, -, -⟩ := add_product_of_valid st req r n hv
    rw [heq]
    constructor
    · show ((st.products ++ [p]).map Product.id).Pairwise (· < ·)
      rw [List.map_append, List.pairwise_append]
      refine ⟨h.1, by simp, ?_⟩
      intro a ha b hb
      simp only [List.map_cons, List.map_nil, List.mem_singleton] at hb
      subst hb
      rw [hid]
      obtain ⟨q, hq, rfl⟩ := List.mem_map.mp ha
      exact h.2 q hq
    · intro q hq
      show q.id < st.product_id_counter + 1
      rcases List.mem_append.mp hq with hq | hq
      · exact Nat.lt_succ_of_lt (h.2 q hq)
      · have hqp : q = p := List.mem_singleton.mp hq
        rw [hqp, hid]
        exact Nat.lt_succ_self _
  · by_cases hp : preUploadValid req = true
    · have hpf : pyFloat? (req.prix.getD "") = none := by
        rcases hh : pyFloat? (req.prix.getD "") with _ | v
        · rfl
        · rw [createValid, hp, hh] at hv
          simp at hv
      rw [add_product_of_price_fail st req r n hp hpf]
      exact ⟨h.1, h.2⟩
    · have hp' : preUploadValid req = false := by
        simpa using hp
      obtain ⟨-, hst, -⟩ := add_product_of_not_preUploadValid st req r n hp'
      rw [hst]
      exact h

lemma catInv_setProduct (st : CatalogState) (pid : Nat) (X : Product)
    (h : CatInv st) (hX : X.id = pid)
    (hb : ∃ q ∈ st.products, q.id = pid) :
    CatInv { st with products := setProduct st.products pid X } := by
  obtain ⟨q0, hq0, hq0id⟩ := hb
  constructor
  · show ((setProduct st.products pid X).map Product.id).Pairwise (· < ·)
    rw [setProduct_map_id _ _ _ hX]
    exact h.1
  · intro q hq
    rcases mem_setProduct hq with hq | rfl
    · exact h.2 q hq
    · rw [hX, ← hq0id]
      exact h.2 q0 hq0

lemma catInv_uias (st : CatalogState) (pid : Nat) (p : Product)
    (im : Option ImageFile) (r n : String) (h : CatInv st) (hX : p.id = pid)
    (hb : ∃ q ∈ st.products, q.id = pid) :
    CatInv (update_image_and_stamp st pid p im r n).2.1 := by
  rcases im with _ | image
  · rw [uias_no_image]
    exact catInv_setProduct st pid _ h hX hb
  · by_cases hg : (image.filename != "" && allowed_file image.filename) = true
    · rw [uias_good_image st pid p image r n hg]
      exact catInv_setProduct st pid _ h hX hb
    · have hg' : (image.filename != "" && allowed_file image.filename) = false := by
        simpa using hg
      rw [uias_bad_image st pid p image r n hg']
      exact catInv_setProduct st pid _ h hX hb

lemma catInv_update (st : CatalogState) (pid : Nat) (req : UpdateRequest)
    (r n : String) (h : CatInv st) : CatInv (update_product st pid req r n).2.1 := by
  rcases hf : st.products.find? (fun p => p.id == pid) with _ | p0
  · rw [update_product_not_found st pid req r n hf]
    exact h
  · have hid0 : p0.id = pid := find?_id_eq hf
    have hmem0 : p0 ∈ st.products := List.mem_of_find?_eq_some hf
    have hb : ∃ q ∈ st.products, q.id = pid := ⟨p0, hmem0, hid0⟩
    have hXid : (apply_text_fields p0 req).id = pid :=
      (apply_text_fields_id p0 req).trans hid0
    rcases hs : req.prix with _ | s
    · rw [update_product_price_none st pid req r n p0 hf hs]
      exact catInv_uias st pid _ req.image r n h hXid hb
    · rcases hv : pyFloat? s with _ | v
      · rw [update_product_price_fail st pid req r n p0 s hf hs hv]
        exact catInv_setProduct st pid _ h hXid hb
      · rw [update_product_price_some st pid req r n p0 s v hf hs hv]
        exact catInv_uias st pid _ req.image r n h hXid hb

lemma catInv_delete (st : CatalogState) (pid : Nat) (h : CatInv st) :
    CatInv (delete_product st pid).2.1 := by
  rcases hf : st.products.find? (fun p => p.id == pid) with _ | p0
  · rw [delete_product_not_found st pid hf]
    exact h
  · rw [delete_product_found st pid p0 hf]
    constructor
    · show ((st.products.erase p0).map Product.id).Pairwise (· < ·)
      exact h.1.sublist ((st.products.erase_sublist p0).map Product.id)
    · intro q hq
      exact h.2 q ((st.products.erase_sublist p0).subset hq)

lemma catInv_applyOp (st : CatalogState) (op : Op) (h : CatInv st) :
    CatInv (applyOp st op) := by
  cases op with
  | create req r n => exact catInv_add st req r n h
  | update pid req r n => exact catInv_update st pid req r n h
  | delete pid => exact catInv_delete st pid h

lemma catInv_foldl (ops : List Op) :
    ∀ st : CatalogState, CatInv st → CatInv (ops.foldl applyOp st) := by
  induction ops with
  | nil => intro st h; exact h
  | cons op rest ih => intro st h; exact ih (applyOp st op) (catInv_applyOp st op h)

/-- The id invariant holds in every reachable state. -/
lemma catInv_runOps (ops : List Op) : CatInv (runOps ops) :=
  catInv_foldl ops initState catInv_init

/-! ## Counter evolution and assigned ids -/

lemma counter_add (st : CatalogState) (req : CreateRequest) (r n : String) :
    (add_product st req r n).2.1.product_id_counter =
      if createValid req then st.product_id_counter + 1 else st.product_id_counter := by
  by_cases hv : createValid req = true
  · obtain ⟨p, heq, -, -, -, -, -, -⟩ := add_product_of_valid st req r n hv
    rw [heq]
    simp [hv]
  · have hv' : createValid req = false := by simpa using hv
    rw [hv']
    simp only [Bool.false_eq_true, if_false]
    by_cases hp : preUploadValid req = true
    · have hpf : pyFloat? (req.prix.getD "") = none := by
        rcases hh : pyFloat? (req.prix.getD "") with _ | v
        · rfl
        · rw [createValid, hp, hh] at hv'
          simp at hv'
      rw [add_product_of_price_fail st req r n hp hpf]
    · have hp' : preUploadValid req = false := by simpa using hp
      obtain ⟨-, hst, -⟩ := add_product_of_not_preUploadValid st req r n hp'
      rw [hst]

lemma counter_uias (st : CatalogState) (pid : Nat) (p : Product)
    (im : Option ImageFile) (r n : String) :
    (update_image_and_stamp st pid p im r n).2.1.product_id_counter =
      st.product_id_counter := by
  rcases im with _ | image
  · rw [uias_no_image]
  · by_cases hg : (image.filename != "" && allowed_file image.filename) = true
    · rw [uias_good_image st pid p image r n hg]
    · have hg' : (image.filename != "" && allowed_file image.filename) = false := by
        simpa using hg
      rw [uias_bad_image st pid p image r n hg']

lemma counter_update (st : CatalogState) (pid : Nat) (req : UpdateRequest)
    (r n : String) :
    (update_product st pid req r n).2.1.product_id_counter =
      st.product_id_counter := by
  rcases hf : st.products.find? (fun p => p.id == pid) with _ | p0
  · rw [update_product_not_found st pid req r n hf]
  · rcases hs : req.prix with _ | s
    · rw [update_product_price_none st pid req r n p0 hf hs, counter_uias]
    · rcases hv : pyFloat? s with _ | v
      · rw [update_product_price_fail st pid req r n p0 s hf hs hv]
      · rw [update_product_price_some st pid req r n p0 s v hf hs hv, counter_uias]

lemma counter_delete (st : CatalogState) (pid : Nat) :
    (delete_product st pid).2.1.product_id_counter = st.product_id_counter := by
  rcases hf : st.products.find? (fun p => p.id == pid) with _ | p0
  · rw [delete_product_not_found st pid hf]
  · rw [delete_product_found st pid p0 hf]

lemma counter_applyOp (st : CatalogState) (op : Op) :
    (applyOp st op).product_id_counter =
      if isOkCreate op then st.product_id_counter + 1 else st.product_id_counter := by
  cases op with
  | create req r n => exact counter_add st req r n
  | update pid req r n =>
    simp [applyOp, isOkCreate, counter_update]
  | delete pid =>
    simp [applyOp, isOkCreate, counter_delete]

lemma assignedIds_eq (st : CatalogState) (op : Op) :
    assignedIds st op = if isOkCreate op then [st.product_id_counter] else [] := by
  cases op with
  | update pid req r n => rfl
  | delete pid => rfl
  | create req r n =>
    by_cases hv : createValid req = true
    · obtain ⟨p, heq, hid, -, -, -, -, -⟩ := add_product_of_valid st req r n hv
      simp [assignedIds, heq, isOkCreate, hv, hid]
    · have hv' : createValid req = false := by simpa using hv
      by_cases hp : preUploadValid req = true
      · have hpf : pyFloat? (req.prix.getD "") = none := by
          rcases hh : pyFloat? (req.prix.getD "") with _ | v
          · rfl
          · rw [createValid, hp, hh] at hv'
            simp at hv'
        simp [assignedIds, add_product_of_price_fail st req r n hp hpf, isOkCreate, hv']
      · have hp' : preUploadValid req = false := by simpa using hp
        obtain ⟨hval, -, -⟩ := add_product_of_not_preUploadValid st req r n hp'
        obtain ⟨m, hres⟩ := isValidationError_exists hval
        simp [assignedIds, hres, isOkCreate, hv']

lemma numOkCreates_cons (op : Op) (rest : List Op) :
    numOkCreates (op :: rest) =
      (if isOkCreate op then 1 else 0) + numOkCreates rest := by
  by_cases h : isOkCreate op = true
  · simp [numOkCreates, h]
    omega
  · have h' : isOkCreate op = false := by simpa using h
    simp [numOkCreates, h']

lemma traceRun_fst : ∀ (ops : List Op) (st : CatalogState),
    (traceRun st ops).1 = ops.foldl applyOp st := by
  intro ops
  induction ops with
  | nil => intro st; rfl
  | cons op rest ih => intro st; exact ih (applyOp st op)

lemma traceRun_snd : ∀ (ops : List Op) (st : CatalogState),
    (traceRun st ops).2 = List.range' st.product_id_counter (numOkCreates ops) := by
  intro ops
  induction ops with
  | nil => intro st; rfl
  | cons op rest ih =>
    intro st
    show assignedIds st op ++ (traceRun (applyOp st op) rest).2 = _
    rw [ih, assignedIds_eq, counter_applyOp, numOkCreates_cons]
    by_cases h : isOkCreate op = true
    · rw [h]
      simp only [if_true]
      rw [Nat.add_comm 1 (numOkCreates rest), List.range'_succ]
      rfl
    · have h' : isOkCreate op = false := by simpa using h
      rw [h']
      simp

/-! ## The text invariant: stored names and descriptions are stripped -/

lemma apply_text_fields_name (p0 : Product) (req : UpdateRequest) :
    (apply_text_fields p0 req).name = p0.name ∨
      ∃ s, req.name = some s ∧ (apply_text_fields p0 req).name = pyStrip s := by
  unfold apply_text_fields
  rcases hn : req.name with _ | s <;> rcases hd : req.description with _ | t
  · exact .inl rfl
  · exact .inl rfl
  · exact .inr ⟨s, rfl, rfl⟩
  · exact .inr ⟨s, rfl, rfl⟩

lemma apply_text_fields_description (p0 : Product) (req : UpdateRequest) :
    (apply_text_fields p0 req).description = p0.description ∨
      ∃ t, req.description = some t ∧
        (apply_text_fields p0 req).description = pyStrip t := by
  unfold apply_text_fields
  rcases hn : req.name with _ | s <;> rcases hd : req.description with _ | t
  · exact .inl rfl
  · exact .inr ⟨t, rfl, rfl⟩
  · exact .inl rfl
  · exact .inr ⟨t, rfl, rfl⟩

lemma add_product_products_of_invalid (st : CatalogState) (req : CreateRequest)
    (r n : String) (hv : createValid req = false) :
    (add_product st req r n).2.1.products = st.products := by
  by_cases hp : preUploadValid req = true
  · have hpf : pyFloat? (req.prix.getD "") = none := by
      rcases hh : pyFloat? (req.prix.getD "") with _ | v
      · rfl
      · rw [createValid, hp, hh] at hv
        simp at hv
    rw [add_product_of_price_fail st req r n hp hpf]
  · have hp' : preUploadValid req = false := by simpa using hp
    obtain ⟨-, hst, -⟩ := add_product_of_not_preUploadValid st req r n hp'
    rw [hst]

lemma uias_products_shape (st : CatalogState) (pid : Nat) (p : Product)
    (im : Option ImageFile) (r n : String) :
    ∃ X, X.name = p.name ∧ X.description = p.description ∧
      (update_image_and_stamp st pid p im r n).2.1.products =
        setProduct st.products pid X := by
  rcases im with _ | image
  · exact ⟨{ p with updatedAt := some n }, rfl, rfl, by rw [uias_no_image]⟩
  · by_cases hg : (image.filename != "" && allowed_file image.filename) = true
    · exact ⟨{ p with image := "/uploads/" ++ r, updatedAt := some n }, rfl, rfl,
        by rw [uias_good_image st pid p image r n hg]⟩
    · have hg' : (image.filename != "" && allowed_file image.filename) = false := by
        simpa using hg
      exact ⟨{ p with updatedAt := some n }, rfl, rfl,
        by rw [uias_bad_image st pid p image r n hg']⟩

lemma update_product_products_shape (st : CatalogState) (pid : Nat)
    (req : UpdateRequest) (r n : String) :
    (update_product st pid req r n).2.1.products = st.products ∨
      ∃ p0, st.products.find? (fun p => p.id == pid) = some p0 ∧
        ∃ X, X.name = (apply_text_fields p0 req).name ∧
          X.description = (apply_text_fields p0 req).description ∧
          (update_product st pid req r n).2.1.products =
            setProduct st.products pid X := by
  rcases hf : st.products.find? (fun p => p.id == pid) with _ | p0
  · left
    rw [update_product_not_found st pid req r n hf]
  · right
    refine ⟨p0, hf, ?_⟩
    rcases hs : req.prix with _ | s
    · rw [update_product_price_none st pid req r n p0 hf hs]
      exact uias_products_shape st pid _ req.image r n
    · rcases hv : pyFloat? s with _ | v
      · rw [update_product_price_fail st pid req r n p0 s hf hs hv]
        exact ⟨_, rfl, rfl, rfl⟩
      · rw [update_product_price_some st pid req r n p0 s v hf hs hv]
        exact uias_products_shape st pid
          { apply_text_fields p0 req with prix := v } req.image r n

lemma textInv_applyOp (st : CatalogState) (op : Op) (h : TextInv st) :
    TextInv (applyOp st op) := by
  cases op with
  | create req r n =>
    by_cases hv : createValid req = true
    · obtain ⟨p, heq, -, hname, hdesc, -, -, -⟩ := add_product_of_valid st req r n hv
      show TextInv (add_product st req r n).2.1
      rw [heq]
      intro q hq
      rcases List.mem_append.mp hq with hq | hq
      · exact h q hq
      · have hqp : q = p := List.mem_singleton.mp hq
        subst hqp
        rw [hname, hdesc]
        exact ⟨pyStrip_idem _, pyStrip_idem _⟩
    · have hv' : createValid req = false := by simpa using hv
      show TextInv (add_product st req r n).2.1
      intro q hq
      rw [add_product_products_of_invalid st req r n hv'] at hq
      exact h q hq
  | update pid req r n =>
    show TextInv (update_product st pid req r n).2.1
    rcases update_product_products_shape st pid req r n with hsh | ⟨p0, hf, X, hn, hd, hsh⟩
    · intro q hq
      rw [hsh] at hq
      exact h q hq
    · intro q hq
      rw [hsh] at hq
      rcases mem_setProduct hq with hq | rfl
      · exact h q hq
      · have hmem0 : p0 ∈ st.products := List.mem_of_find?_eq_some hf
        constructor
        · rw [hn]
          rcases apply_text_fields_name p0 req with he | ⟨s, -, he⟩
          · rw [he]
            exact (h p0 hmem0).1
          · rw [he]
            exact pyStrip_idem s
        · rw [hd]
          rcases apply_text_fields_description p0 req with he | ⟨t, -, he⟩
          · rw [he]
            exact (h p0 hmem0).2
          · rw [he]
            exact pyStrip_idem t
  | delete pid =>
    show TextInv (delete_product st pid).2.1
    rcases hf : st.products.find? (fun p => p.id == pid) with _ | p0
    · rw [delete_product_not_found st pid hf]
      exact h
    · rw [delete_product_found st pid p0 hf]
      intro q hq
      exact h q ((st.products.erase_sublist p0).subset hq)

lemma textInv_runOps (ops : List Op) : TextInv (runOps ops) := by
  have main : ∀ (l : List Op) (st : CatalogState),
      TextInv st → TextInv (l.foldl applyOp st) := by
    intro l
    induction l with
    | nil => intro st h; exact h
    | cons op rest ih => intro st h; exact ih (applyOp st op) (textInv_applyOp st op h)
  exact main ops initState (by intro p hp; cases hp)

/-! ## The non-empty text invariant (under non-blank supplied text) -/

lemma textOkOpt_strip_ne {o : Option String} {s : String}
    (ho : textOkOpt o = true) (hs : o = some s) : pyStrip s ≠ "" := by
  rw [hs] at ho
  simp only [textOkOpt, Bool.not_eq_true'] at ho
  intro hc
  rw [hc] at ho
  exact absurd ho (by decide)

lemma preUploadValid_fields {req : CreateRequest} (h : preUploadValid req = true) :
    pyTruthy req.name = true ∧ pyTruthy req.description = true ∧
      pyTruthy req.prix = true := by
  rcases hi : req.image with _ | image
  · rw [preUploadValid, hi] at h
    cases h
  · rw [preUploadValid, hi] at h
    simp only [Bool.and_eq_true] at h
    exact ⟨h.2.1.1, h.2.1.2, h.2.2⟩

lemma pyTruthy_some {o : Option String} (h : pyTruthy o = true) :
    ∃ s, o = some s := by
  rcases o with _ | s
  · cases h
  · exact ⟨s, rfl⟩

lemma createValid_pre {req : CreateRequest} (h : createValid req = true) :
    preUploadValid req = true := by
  rw [createValid, Bool.and_eq_true] at h
  exact h.1

lemma neInv_applyOp (st : CatalogState) (op : Op) (hop : opTextOk op = true)
    (h : NonemptyTextInv st) : NonemptyTextInv (applyOp st op) := by
  cases op with
  | create req r n =>
    simp only [opTextOk, Bool.and_eq_true] at hop
    by_cases hv : createValid req = true
    · obtain ⟨p, heq, -, hname, hdesc, -, -, -⟩ := add_product_of_valid st req r n hv
      show NonemptyTextInv (add_product st req r n).2.1
      rw [heq]
      intro q hq
      rcases List.mem_append.mp hq with hq | hq
      · exact h q hq
      · have hqp : q = p := List.mem_singleton.mp hq
        subst hqp
        obtain ⟨hn, hd, -⟩ := preUploadValid_fields (createValid_pre hv)
        obtain ⟨s, hs⟩ := pyTruthy_some hn
        obtain ⟨t, ht⟩ := pyTruthy_some hd
        constructor
        · rw [hname, hs]
          exact textOkOpt_strip_ne hop.1 hs
        · rw [hdesc, ht]
          exact textOkOpt_strip_ne hop.2 ht
    · have hv' : createValid req = false := by simpa using hv
      show NonemptyTextInv (add_product st req r n).2.1
      intro q hq
      rw [add_product_products_of_invalid st req r n hv'] at hq
      exact h q hq
  | update pid req r n =>
    simp only [opTextOk, Bool.and_eq_true] at hop
    show NonemptyTextInv (update_product st pid req r n).2.1
    rcases update_product_products_shape st pid req r n with hsh | ⟨p0, hf, X, hn, hd, hsh⟩
    · intro q hq
      rw [hsh] at hq
      exact h q hq
    · intro q hq
      rw [hsh] at hq
      rcases mem_setProduct hq with hq | rfl
      · exact h q hq
      · have hmem0 : p0 ∈ st.products := List.mem_of_find?_eq_some hf
        constructor
        · rw [hn]
          rcases apply_text_fields_name p0 req with he | ⟨s, hsome, he⟩
          · rw [he]
            exact (h p0 hmem0).1
          · rw [he]
            exact textOkOpt_strip_ne hop.1 hsome
        · rw [hd]
          rcases apply_text_fields_description p0 req with he | ⟨t, hsome, he⟩
          · rw [he]
            exact (h p0 hmem0).2
          · rw [he]
            exact textOkOpt_strip_ne hop.2 hsome
  | delete pid =>
    show NonemptyTextInv (delete_product st pid).2.1
    rcases hf : st.products.find? (fun p => p.id == pid) with _ | p0
    · rw [delete_product_not_found st pid hf]
      exact h
    · rw [delete_product_found st pid p0 hf]
      intro q hq
      exact h q ((st.products.erase_sublist p0).subset hq)

lemma neInv_runOps (ops : List Op) (hops : ops.all opTextOk = true) :
    NonemptyTextInv (runOps ops) := by
  have main : ∀ (l : List Op) (st : CatalogState), l.all opTextOk = true →
      NonemptyTextInv st → NonemptyTextInv (l.foldl applyOp st) := by
    intro l
    induction l with
    | nil => intro st _ h; exact h
    | cons op rest ih =>
      intro st hall h
      rw [List.all_cons, Bool.and_eq_true] at hall
      exact ih (applyOp st op) hall.2 (neInv_applyOp st op hall.1 h)
  exact main ops initState hops (by intro p hp; cases hp)

/-! ## Claims -/

/-- C1 (amended): every Create that fails validation signals
`ValidationError` and leaves the collection and the id counter unchanged.
The pre-upload checks (missing image, empty filename, disallowed extension,
missing required field) fire before any store call, with the whole state
untouched; but a non-numeric price is only detected after `image.save`
has run, so in that one case the upload has already happened: exactly one
upload call is made and the file stays in the store. -/
theorem C1_create_validation_effects (st : CatalogState) (req : CreateRequest)
    (r n : String) (h : createValid req = false) :
    isValidationError (add_product st req r n).1 = true ∧
    (add_product st req r n).2.1.products = st.products ∧
    (add_product st req r n).2.1.product_id_counter = st.product_id_counter ∧
    (if preUploadValid req then
        (add_product st req r n).2.2 = [StoreCall.upload ("uploads/" ++ r)] ∧
        (add_product st req r n).2.1.store = storeSave st.store ("uploads/" ++ r)
      else
        (add_product st req r n).2.2 = [] ∧
        (add_product st req r n).2.1.store = st.store) := by
  by_cases hp : preUploadValid req = true
  · have hpf : pyFloat? (req.prix.getD "") = none := by
      rcases hh : pyFloat? (req.prix.getD "") with _ | v
      · rfl
      · rw [createValid, hp, hh] at h
        simp at h
    rw [add_product_of_price_fail st req r n hp hpf]
    refine ⟨rfl, rfl, rfl, ?_⟩
    rw [if_pos hp]
    exact ⟨rfl, rfl⟩
  · have hp' : preUploadValid req = false := by simpa using hp
    obtain ⟨h1, h2, h3⟩ := add_product_of_not_preUploadValid st req r n hp'
    refine ⟨h1, by rw [h2], by rw [h2], ?_⟩
    rw [if_neg hp]
    exact ⟨h3, by rw [h2]⟩

/-- C1 counterexample: a Create with a valid image, valid fields and a
non-numeric price is rejected as a validation failure, the collection stays
empty - yet the image store was called and the file is present afterwards,
refuting "the ValidationError is signalled before any image upload is
attempted ... no image asset is written". -/
theorem C1_price_upload_counterexample :
    isValidationError (add_product initState reqBadPrice "r1" "t1").1 = true ∧
    (add_product initState reqBadPrice "r1" "t1").2.1.products = [] ∧
    (add_product initState reqBadPrice "r1" "t1").2.2 =
      [StoreCall.upload "uploads/r1"] ∧
    (add_product initState reqBadPrice "r1" "t1").2.1.store = ["uploads/r1"] := by
  decide

/-- C1 witness: the amended theorem at a concrete failing request. -/
theorem C1_witness :
    createValid reqBadPrice = false ∧
    (isValidationError (add_product initState reqBadPrice "r1" "t1").1 = true ∧
     (add_product initState reqBadPrice "r1" "t1").2.1.products =
       initState.products ∧
     (add_product initState reqBadPrice "r1" "t1").2.1.product_id_counter =
       initState.product_id_counter ∧
     (if preUploadValid reqBadPrice then
        (add_product initState reqBadPrice "r1" "t1").2.2 =
          [StoreCall.upload ("uploads/" ++ "r1")] ∧
        (add_product initState reqBadPrice "r1" "t1").2.1.store =
          storeSave initState.store ("uploads/" ++ "r1")
      else
        (add_product initState reqBadPrice "r1" "t1").2.2 = [] ∧
        (add_product initState reqBadPrice "r1" "t1").2.1.store =
          initState.store)) :=
  ⟨by decide, C1_create_validation_effects initState reqBadPrice "r1" "t1" (by decide)⟩

/-- C2 (code bug): an Update of the existing product 1 that supplies a new
name and a non-numeric price returns the ValidationError, but the record's
name has already been overwritten in place ("Mug" became "New name"), so
the call is not all-or-nothing.  (`updatedAt` is indeed not stamped.) -/
theorem C2_partial_update_applied :
    isValidationError
      (update_product stMug 1 ⟨some "New name", none, some "abc", none⟩
        "r2" "t2").1 = true ∧
    stMug.products.map Product.name = ["Mug"] ∧
    (update_product stMug 1 ⟨some "New name", none, some "abc", none⟩
      "r2" "t2").2.1.products.map Product.name = ["New name"] ∧
    (update_product stMug 1 ⟨some "New name", none, some "abc", none⟩
      "r2" "t2").2.1.products.map Product.updatedAt = [none] := by
  decide

/-- C3 counterexample: creating a product whose supplied name is
whitespace-only passes the presence check, and the stored (stripped) name
is the empty string - a reachable state violating "every Product has a
non-empty name". -/
theorem C3_blank_name_counterexample :
    (runOps [Op.create reqBlankName "r1" "t1"]).products.any
      (fun p => p.name == "") = true := by
  decide

/-- C3 (amended): in every reachable state all stored names and
descriptions are trimmed (fixed points of stripping); and whenever every
name/description supplied by the trace does not strip to the empty string,
they are moreover non-empty.  A whitespace-only supplied name or
description is stored as the empty string. -/
theorem C3_text_fields_trimmed (ops : List Op) :
    (∀ p ∈ (runOps ops).products,
      pyStrip p.name = p.name ∧ pyStrip p.description = p.description) ∧
    (ops.all opTextOk = true →
      ∀ p ∈ (runOps ops).products, p.name ≠ "" ∧ p.description ≠ "") :=
  ⟨textInv_runOps ops, fun h => neInv_runOps ops h⟩

/-- C3 witness: the amended theorem at a concrete one-create trace. -/
theorem C3_witness :
    [Op.create reqMug "r1" "t1"].all opTextOk = true ∧
    mugProduct ∈ (runOps [Op.create reqMug "r1" "t1"]).products ∧
    pyStrip mugProduct.name = mugProduct.name ∧ mugProduct.name ≠ "" :=
  ⟨by decide, by decide,
    ((C3_text_fields_trimmed [Op.create reqMug "r1" "t1"]).1 mugProduct
      (by decide)).1,
    ((C3_text_fields_trimmed [Op.create reqMug "r1" "t1"]).2 (by decide) mugProduct
      (by decide)).1⟩

/-- C4: along any operation sequence from the initial state, the ids handed
out by the successful Create calls are exactly 1, 2, 3, ... in order -
strictly increasing, starting at 1, and never reused even across
interleaved Deletes (every assigned id occurs once in the trace) - and in
the resulting state the ids of the collection are pairwise distinct. -/
theorem C4_ids_monotone (ops : List Op) :
    (traceRun initState ops).2 = List.range' 1 (numOkCreates ops) ∧
    ((runOps ops).products.map Product.id).Pairwise (· ≠ ·) := by
  constructor
  · rw [traceRun_snd]
    rfl
  · exact catInv_ne (catInv_runOps ops)

/-- C5: a Create whose image part is missing, has an empty filename, or has
a disallowed extension is rejected with ValidationError; the whole state
(collection, id counter and image store) is unchanged and the image store
is never called. -/
theorem C5_bad_image_no_upload (st : CatalogState) (req : CreateRequest)
    (r n : String) (h : imageBad req = true) :
    isValidationError (add_product st req r n).1 = true ∧
    (add_product st req r n).2.1 = st ∧
    (add_product st req r n).2.2 = [] := by
  have hp : preUploadValid req = false := by
    rcases hi : req.image with _ | image
    · rw [preUploadValid, hi]
    · simp only [imageBad, hi] at h
      rw [preUploadValid, hi]
      by_cases hfn : (image.filename == "") = true
      · simp [bne, hfn]
      · have hfn' : (image.filename == "") = false := by simpa using hfn
        have hal : allowed_file image.filename = false := by
          rw [hfn'] at h
          simpa using h
        simp [hal]
  exact add_product_of_not_preUploadValid st req r n hp

/-- C5 witness: the theorem at a concrete request with no image part. -/
theorem C5_witness :
    imageBad reqNoImage = true ∧
    (isValidationError (add_product initState reqNoImage "r1" "t1").1 = true ∧
     (add_product initState reqNoImage "r1" "t1").2.1 = initState ∧
     (add_product initState reqNoImage "r1" "t1").2.2 = []) :=
  ⟨by decide, C5_bad_image_no_upload initState reqNoImage "r1" "t1" (by decide)⟩

lemma apply_text_fields_image (p0 : Product) (req : UpdateRequest) :
    (apply_text_fields p0 req).image = p0.image := by
  unfold apply_text_fields
  rcases req.name with _ | s <;> rcases req.description with _ | t <;> rfl

lemma find?_setProduct_self {st : CatalogState} {pid : Nat} {p0 : Product}
    (hf : st.products.find? (fun p => p.id == pid) = some p0)
    (X : Product) (hX : X.id = pid) :
    (setProduct st.products pid X).find? (fun p => p.id == pid) = some X := by
  rcases find?_setProduct X hf with h | h
  · exact h
  · exact absurd hX h

/-- C6 (amended): for an Update of an existing product:
(i) if no usable image is supplied (absent part, empty filename, or
disallowed extension) the stored record keeps its `imageRef`, no store
call is made, and - when the supplied price also parses - the call
succeeds, so the unusable image causes no error;
(ii) if a usable image is supplied and the supplied price (if any) parses,
the stored `imageRef` is replaced by the new reference, the new file is
uploaded, and the old asset is deleted exactly once - precisely when it is
still present in the store, as the code guards the delete with an
existence check;
(iii) if a usable image is supplied but the price fails to parse, the
ValidationError fires first: `imageRef` is untouched and no store call is
made. -/
theorem C6_update_image_contract (st : CatalogState) (pid : Nat)
    (req : UpdateRequest) (r n : String) (p0 : Product)
    (hf : st.products.find? (fun p => p.id == pid) = some p0) :
    (updateImageValid req = false →
      (update_product st pid req r n).2.2 = [] ∧
      (getById (update_product st pid req r n).2.1 pid).map Product.image =
        some p0.image ∧
      (updatePriceOk req = true →
        ∃ q, (update_product st pid req r n).1 = .ok q)) ∧
    (updateImageValid req = true → updatePriceOk req = true →
      (∃ q, (update_product st pid req r n).1 = .ok q ∧
        q.image = "/uploads/" ++ r) ∧
      (getById (update_product st pid req r n).2.1 pid).map Product.image =
        some ("/uploads/" ++ r) ∧
      (update_product st pid req r n).2.2 =
        (if st.store.contains (pyLstripSlash p0.image) then
          [StoreCall.delete (pyLstripSlash p0.image)]
        else []) ++ [StoreCall.upload ("uploads/" ++ r)]) ∧
    (updateImageValid req = true → updatePriceOk req = false →
      isValidationError (update_product st pid req r n).1 = true ∧
      (getById (update_product st pid req r n).2.1 pid).map Product.image =
        some p0.image ∧
      (update_product st pid req r n).2.2 = []) := by
  have hid0 : p0.id = pid := find?_id_eq hf
  have hatfid : (apply_text_fields p0 req).id = pid :=
    (apply_text_fields_id p0 req).trans hid0
  have hatfim : (apply_text_fields p0 req).image = p0.image :=
    apply_text_fields_image p0 req
  have core : ∀ p : Product, p.id = pid → p.image = p0.image →
      ((updateImageValid req = false →
        (update_image_and_stamp st pid p req.image r n).2.2 = [] ∧
        (getById (update_image_and_stamp st pid p req.image r n).2.1 pid).map
          Product.image = some p0.image ∧
        ∃ q, (update_image_and_stamp st pid p req.image r n).1 = .ok q) ∧
      (updateImageValid req = true →
        (∃ q, (update_image_and_stamp st pid p req.image r n).1 = .ok q ∧
          q.image = "/uploads/" ++ r) ∧
        (getById (update_image_and_stamp st pid p req.image r n).2.1 pid).map
          Product.image = some ("/uploads/" ++ r) ∧
        (update_image_and_stamp st pid p req.image r n).2.2 =
          (if st.store.contains (pyLstripSlash p0.image) then
            [StoreCall.delete (pyLstripSlash p0.image)]
          else []) ++ [StoreCall.upload ("uploads/" ++ r)])) := by
    intro p hpid himg
    rcases hi : req.image with _ | image
    · have hvi : updateImageValid req = false := by
        simp [updateImageValid, hi]
      constructor
      · intro _
        rw [uias_no_image]
        refine ⟨rfl, ?_, ⟨{ p with updatedAt := some n }, rfl⟩⟩
        show ((setProduct st.products pid { p with updatedAt := some n }).find?
          (fun q => q.id == pid)).map Product.image = some p0.image
        rw [find?_setProduct_self hf { p with updatedAt := some n } hpid]
        show some p.image = some p0.image
        rw [himg]
      · intro hcontra
        rw [hvi] at hcontra
        cases hcontra
    · by_cases hg : (image.filename != "" && allowed_file image.filename) = true
      · have hvi : updateImageValid req = true := by
          simp only [updateImageValid, hi]
          exact hg
        constructor
        · intro hcontra
          rw [hvi] at hcontra
          cases hcontra
        · intro _
          rw [uias_good_image st pid p image r n hg]
          refine ⟨⟨{ p with image := "/uploads/" ++ r, updatedAt := some n },
            rfl, rfl⟩, ?_, ?_⟩
          · show ((setProduct st.products pid
              { p with image := "/uploads/" ++ r, updatedAt := some n }).find?
              (fun q => q.id == pid)).map Product.image =
                some ("/uploads/" ++ r)
            rw [find?_setProduct_self hf
              { p with image := "/uploads/" ++ r, updatedAt := some n } hpid]
            rfl
          · show (if st.store.contains (pyLstripSlash p.image) then
                [StoreCall.delete (pyLstripSlash p.image)] else []) ++
                [StoreCall.upload ("uploads/" ++ r)] = _
            rw [himg]
      · have hg' : (image.filename != "" && allowed_file image.filename) = false := by
          simpa using hg
        have hvi : updateImageValid req = false := by
          simp only [updateImageValid, hi]
          exact hg'
        constructor
        · intro _
          rw [uias_bad_image st pid p image r n hg']
          refine ⟨rfl, ?_, ⟨{ p with updatedAt := some n }, rfl⟩⟩
          show ((setProduct st.products pid { p with updatedAt := some n }).find?
            (fun q => q.id == pid)).map Product.image = some p0.image
          rw [find?_setProduct_self hf { p with updatedAt := some n } hpid]
          show some p.image = some p0.image
          rw [himg]
        · intro hcontra
          rw [hvi] at hcontra
          cases hcontra
  rcases hs : req.prix with _ | s
  · have hpo : updatePriceOk req = true := by
      simp [updatePriceOk, hs]
    rw [update_product_price_none st pid req r n p0 hf hs]
    have hc := core (apply_text_fields p0 req) hatfid hatfim
    refine ⟨?_, ?_, ?_⟩
    · intro hvi
      exact ⟨(hc.1 hvi).1, (hc.1 hvi).2.1, fun _ => (hc.1 hvi).2.2⟩
    · intro hvi _
      exact hc.2 hvi
    · intro _ hpf
      rw [hpo] at hpf
      cases hpf
  · rcases hv : pyFloat? s with _ | v
    · have hpo : updatePriceOk req = false := by
        simp [updatePriceOk, hs, hv]
      rw [update_product_price_fail st pid req r n p0 s hf hs hv]
      refine ⟨?_, ?_, ?_⟩
      · intro hvi
        refine ⟨rfl, ?_, ?_⟩
        · show ((setProduct st.products pid (apply_text_fields p0 req)).find?
            (fun q => q.id == pid)).map Product.image = some p0.image
          rw [find?_setProduct_self hf _ hatfid]
          show some (apply_text_fields p0 req).image = some p0.image
          rw [hatfim]
        · intro hpf
          rw [hpo] at hpf
          cases hpf
      · intro _ hpf
        rw [hpo] at hpf
        cases hpf
      · intro hvi _
        refine ⟨rfl, ?_, rfl⟩
        show ((setProduct st.products pid (apply_text_fields p0 req)).find?
          (fun q => q.id == pid)).map Product.image = some p0.image
        rw [find?_setProduct_self hf _ hatfid]
        show some (apply_text_fields p0 req).image = some p0.image
        rw [hatfim]
    · have hpo : updatePriceOk req = true := by
        simp [updatePriceOk, hs, hv]
      rw [update_product_price_some st pid req r n p0 s v hf hs hv]
      have hc := core { apply_text_fields p0 req with prix := v } hatfid hatfim
      refine ⟨?_, ?_, ?_⟩
      · intro hvi
        exact ⟨(hc.1 hvi).1, (hc.1 hvi).2.1, fun _ => (hc.1 hvi).2.2⟩
      · intro hvi _
        exact hc.2 hvi
      · intro _ hpf
        rw [hpo] at hpf
        cases hpf

/-- C6 counterexample: an Update of the existing product 1 supplying a
valid new image together with a non-numeric price neither replaces the
stored `imageRef` nor deletes the old asset (no store call at all): the
ValidationError fires before the image phase.  This refutes "if a valid new
image is supplied ..., imageRef is replaced ... and the old image asset is
deleted exactly once" as stated for every Update call on an existing
product. -/
theorem C6_price_blocks_image_counterexample :
    updateImageValid ⟨none, none, some "abc", some ⟨"new.png"⟩⟩ = true ∧
    stMug.products.map Product.id = [1] ∧
    (update_product stMug 1 ⟨none, none, some "abc", some ⟨"new.png"⟩⟩
      "r2" "t2").2.1.products.map Product.image = ["/uploads/r1"] ∧
    (update_product stMug 1 ⟨none, none, some "abc", some ⟨"new.png"⟩⟩
      "r2" "t2").2.2 = [] := by
  decide

/-- C6 witness: the amended theorem at a concrete valid-image update. -/
theorem C6_witness :
    stMug.products.find? (fun p => p.id == 1) = some mugProduct ∧
    updateImageValid ⟨none, none, none, some ⟨"new.png"⟩⟩ = true ∧
    updatePriceOk ⟨none, none, none, some ⟨"new.png"⟩⟩ = true ∧
    (getById (update_product stMug 1 ⟨none, none, none, some ⟨"new.png"⟩⟩
      "r2" "t2").2.1 1).map Product.image = some ("/uploads/" ++ "r2") ∧
    (update_product stMug 1 ⟨none, none, none, some ⟨"new.png"⟩⟩
      "r2" "t2").2.2 =
      (if stMug.store.contains (pyLstripSlash mugProduct.image) then
        [StoreCall.delete (pyLstripSlash mugProduct.image)]
      else []) ++ [StoreCall.upload ("uploads/" ++ "r2")] := by
  have h := C6_update_image_contract stMug 1 ⟨none, none, none, some ⟨"new.png"⟩⟩
    "r2" "t2" mugProduct (by decide)
  exact ⟨by decide, by decide, by decide,
    (h.2.1 (by decide) (by decide)).2.1, (h.2.1 (by decide) (by decide)).2.2⟩

/-- C7: in every reachable state, List returns a count equal to the length
of the returned sequence; every listed product is individually retrievable
by Get with its id, yielding that same product; and on the empty collection
List returns the empty sequence with count 0.  (`get_products` is a total
function: List always succeeds.) -/
theorem C7_list_count_get (ops : List Op) :
    (get_products (runOps ops)).1 = (get_products (runOps ops)).2.length ∧
    (∀ p ∈ (get_products (runOps ops)).2,
      get_product (runOps ops) p.id = .ok p) ∧
    ((runOps ops).products = [] → get_products (runOps ops) = (0, [])) := by
  refine ⟨rfl, ?_, ?_⟩
  · intro p hp
    have hp' : p ∈ (runOps ops).products := hp
    have hu := catInv_ne (catInv_runOps ops)
    have hfind := find?_of_mem_unique hu hp'
    unfold get_product
    rw [hfind]
  · intro h
    rw [get_products, h]
    rfl

/-- C7 witness: the theorem at a concrete one-create trace and product. -/
theorem C7_witness :
    mugProduct ∈ (get_products (runOps [Op.create reqMug "r1" "t1"])).2 ∧
    get_product (runOps [Op.create reqMug "r1" "t1"]) mugProduct.id =
      .ok mugProduct :=
  ⟨by decide,
    (C7_list_count_get [Op.create reqMug "r1" "t1"]).2.1 mugProduct (by decide)⟩

/-- C8: deleting an id present in a reachable state's collection succeeds
and removes exactly the product with that id: the rest of the collection is
the original list filtered of that id (everyone else unchanged, in the
original order), and the length drops by exactly one. -/
theorem C8_delete_exactly_one (ops : List Op) (pid : Nat)
    (h : (runOps ops).products.any (fun p => p.id == pid) = true) :
    (delete_product (runOps ops) pid).1 = .ok () ∧
    (delete_product (runOps ops) pid).2.1.products =
      (runOps ops).products.filter (fun q => !(q.id == pid)) ∧
    (delete_product (runOps ops) pid).2.1.products.length + 1 =
      (runOps ops).products.length := by
  obtain ⟨p0, hf⟩ : ∃ p0,
      (runOps ops).products.find? (fun p => p.id == pid) = some p0 := by
    rcases hfind : (runOps ops).products.find? (fun p => p.id == pid) with _ | p0
    · obtain ⟨x, hx, hxp⟩ := List.any_eq_true.mp h
      rw [List.find?_eq_none] at hfind
      exact absurd hxp (hfind x hx)
    · exact ⟨p0, hfind⟩
  have hu := catInv_ne (catInv_runOps ops)
  have hm : p0 ∈ (runOps ops).products := List.mem_of_find?_eq_some hf
  rw [delete_product_found (runOps ops) pid p0 hf]
  refine ⟨rfl, erase_find?_eq_filter hu hf, ?_⟩
  show ((runOps ops).products.erase p0).length + 1 =
    (runOps ops).products.length
  rw [List.length_erase_of_mem hm]
  have hne : (runOps ops).products ≠ [] := by
    intro he
    rw [he] at hm
    cases hm
  have hpos : 0 < (runOps ops).products.length := List.length_pos.mpr hne
  omega

/-- C8 witness: the theorem at a concrete one-product state. -/
theorem C8_witness :
    (runOps [Op.create reqMug "r1" "t1"]).products.any
      (fun p => p.id == 1) = true ∧
    ((delete_product (runOps [Op.create reqMug "r1" "t1"]) 1).1 = .ok () ∧
     (delete_product (runOps [Op.create reqMug "r1" "t1"]) 1).2.1.products =
       (runOps [Op.create reqMug "r1" "t1"]).products.filter
         (fun q => !(q.id == 1)) ∧
     (delete_product (runOps [Op.create reqMug "r1" "t1"]) 1).2.1.products.length
       + 1 = (runOps [Op.create reqMug "r1" "t1"]).products.length) :=
  ⟨by decide, C8_delete_exactly_one [Op.create reqMug "r1" "t1"] 1 (by decide)⟩

/-- C9: deleting an id absent from the collection returns NotFoundError and
leaves the entire state - collection (contents and order), id counter, and
image store - unchanged, with no store call. -/
theorem C9_delete_missing_id (st : CatalogState) (pid : Nat)
    (h : st.products.all (fun p => !(p.id == pid)) = true) :
    delete_product st pid = (.error .notFound, st, []) := by
  have hf : st.products.find? (fun p => p.id == pid) = none := by
    rw [List.find?_eq_none]
    intro x hx
    have hx' := List.all_eq_true.mp h x hx
    simpa using hx'
  exact delete_product_not_found st pid hf

/-- C9 witness: the theorem at a concrete absent id. -/
theorem C9_witness :
    stMug.products.all (fun p => !(p.id == 2)) = true ∧
    delete_product stMug 2 = (.error .notFound, stMug, []) :=
  ⟨by decide, C9_delete_missing_id stMug 2 (by decide)⟩

/-- C10: an Update of an existing product that supplies no form field and
no image still succeeds and stamps `updatedAt` with the current time; every
other field of the stored record is unchanged. -/
theorem C10_noop_update_stamps (st : CatalogState) (pid : Nat) (r n : String)
    (p0 : Product)
    (hf : st.products.find? (fun p => p.id == pid) = some p0) :
    update_product st pid ⟨none, none, none, none⟩ r n =
      (.ok { p0 with updatedAt := some n },
        { st with products :=
            setProduct st.products pid { p0 with updatedAt := some n } },
        []) := by
  rw [update_product_price_none st pid ⟨none, none, none, none⟩ r n p0 hf rfl]
  rw [uias_no_image]
  have hatf : apply_text_fields p0 ⟨none, none, none, none⟩ = p0 := rfl
  rw [hatf]

/-- C10 witness: the theorem at a concrete no-op update. -/
theorem C10_witness :
    stMug.products.find? (fun p => p.id == 1) = some mugProduct ∧
    update_product stMug 1 ⟨none, none, none, none⟩ "r9" "t9" =
      (.ok { mugProduct with updatedAt := some "t9" },
        { stMug with products :=
            setProduct stMug.products 1 ({ mugProduct with updatedAt := some "t9" }) },
        []) :=
  ⟨by decide, C10_noop_update_stamps stMug 1 "r9" "t9" mugProduct (by decide)⟩
